import Mathlib

/-!
Verification of fftranscode (src/fftranscode.py): a shallow embedding of the
argument builder, output-name generator, version detection, polling
supervisor loop, cancellation path and the `__main__` input guard, together
with theorems settling the specification claims.

Conventions of the embedding:
  * Python strings are Lean `String`s; slicing is by characters (code points),
    matching Python `str` semantics.
  * Machine-level exit codes are `Int` (Python returncodes are ints).
  * Fallible paths (a Python exception) are `Except String _`.
  * Instance attributes read by a method become explicit parameters, and
    attributes written become explicit components of the result.
-/

/-- The immutable part of the `Fftranscode` instance state: the twelve
constructor parameters stored as attributes (source lines 155-168). -/
structure Config where
  niced : Bool
  input_file : String
  output_file : String
  codec_lib : String
  profile : String
  level : String
  preset : String
  crf : String
  tune : String
  extra : String
  subprocess_out : String
  interactive : Bool
deriving DecidableEq

/-- Python `"%s" % x` for `x` an `Optional[str]`: `None` prints as `"None"`.
Used for `self.ffmpeg_ver` in `gen_output_file_name` (line 202). -/
def pyStr : Option String → String
  | some s => s
  | none => "None"

/-- Python slice `s[:-n]`: all characters but the last `n` (empty when
`len(s) <= n`), as used at line 202 (`self.input_file[:-4]`). -/
def pySliceDropLast (s : String) (n : Nat) : String :=
  String.mk (s.data.take (s.data.length - n))

/-- Helper for Python `str.split()` with no separator: accumulate the current
token (reversed) and emit it at each whitespace run or at the end; empty
tokens are never produced. -/
def splitWsAux : List Char → List Char → List String
  | [], acc => if acc = [] then [] else [String.mk acc.reverse]
  | c :: cs, acc =>
    if c.isWhitespace then
      if acc = [] then splitWsAux cs []
      else String.mk acc.reverse :: splitWsAux cs []
    else splitWsAux cs (c :: acc)

/-- Python `s.split()` (line 245): split on runs of whitespace, discarding
empty tokens, so an all-whitespace string yields no tokens at all. -/
def pysplit (s : String) : List String :=
  splitWsAux s.data []

/-- `Fftranscode.gen_output_file_name` (lines 201-211): strip the last four
characters of the input path, interpolate version and codec options, add the
tune segment only when `tune` is non-empty, and append `".mkv"`. `ver` is the
`self.ffmpeg_ver` attribute at call time. -/
def gen_output_file_name (ver : Option String) (cfg : Config) : String :=
  let file_name :=
    pySliceDropLast cfg.input_file 4 ++ " - ffmpeg:" ++ pyStr ver ++
    "_c:" ++ cfg.codec_lib ++ "_p:" ++ cfg.profile ++ "_l:" ++ cfg.level ++
    "_r:" ++ cfg.preset ++ "_f:" ++ cfg.crf
  let file_name := if cfg.tune ≠ "" then file_name ++ "_t:" ++ cfg.tune else file_name
  file_name ++ ".mkv"

/-- The fixed base argument list of `gen_transcode_args` (lines 214-235),
in the source's exact order. -/
def baseArgs (cfg : Config) : List String :=
  ["ffmpeg", "-hide_banner", "-n", "-i", cfg.input_file, "-map", "0",
   "-codec:a", "copy", "-codec:s", "copy", "-codec:v", cfg.codec_lib,
   "-profile:v", cfg.profile, "-level", cfg.level,
   "-preset", cfg.preset, "-crf", cfg.crf]

/-- The `args.insert(0, 'nice')` of lines 237-238, as the list prepended to
the base arguments. -/
def nicePart (cfg : Config) : List String :=
  if cfg.niced = true then ["nice"] else []

/-- The conditional tune-flag append of lines 240-242. -/
def tunePart (cfg : Config) : List String :=
  if cfg.tune ≠ "" then ["-tune", cfg.tune] else []

/-- The conditional whitespace-split extra-token append of lines 244-246. -/
def extraPart (cfg : Config) : List String :=
  if cfg.extra ≠ "" then pysplit cfg.extra else []

/-- The conditional `-nostdin` append of lines 248-249. -/
def stdinPart (cfg : Config) : List String :=
  if cfg.interactive = false then ["-nostdin"] else []

/-- `Fftranscode.gen_transcode_args` (lines 213-256). The source mutates
`self.output_file` at line 252 when it is empty; the embedding returns the
updated instance state together with the argument list. The list is exactly
the source's: optional `nice` prefix, base arguments, optional tune pair,
optional extra tokens, optional `-nostdin`, and finally `self.output_file`
as it stands after line 252. -/
def gen_transcode_args (ver : Option String) (cfg : Config) : Config × List String :=
  let cfg' := if cfg.output_file = "" then
      { cfg with output_file := gen_output_file_name ver cfg }
    else cfg
  (cfg', nicePart cfg ++ baseArgs cfg ++ tunePart cfg ++ extraPart cfg ++
    stdinPart cfg ++ [cfg'.output_file])

/-- The output path the built argv actually ends with: the configured one, or
the generated one when the configured one is empty (lines 251-254). -/
def resolvedOutput (ver : Option String) (cfg : Config) : String :=
  if cfg.output_file = "" then gen_output_file_name ver cfg else cfg.output_file

theorem output_file_resolved (ver : Option String) (cfg : Config) :
    ((gen_transcode_args ver cfg).1).output_file = resolvedOutput ver cfg := by
  simp only [gen_transcode_args, resolvedOutput]
  split <;> rfl

/-- The example configuration of the spec's worked example: input
`movie.mp4`, defaults for the codec options, no tune, no output file. -/
def cfg_movie : Config :=
  { niced := true, input_file := "movie.mp4", output_file := "",
    codec_lib := "libx264", profile := "High", level := "6.2",
    preset := "9", crf := "17", tune := "", extra := "",
    subprocess_out := "-", interactive := false }

/-- C6: for input `movie.mp4`, codec `libx264`, profile `High`, level `6.2`,
preset `9`, crf `17`, empty tune and engine version `6.0`, the output-name
generator returns exactly
`movie - ffmpeg:6.0_c:libx264_p:High_l:6.2_r:9_f:17.mkv`. -/
theorem C6_generated_name :
    gen_output_file_name (some "6.0") cfg_movie =
      "movie - ffmpeg:6.0_c:libx264_p:High_l:6.2_r:9_f:17.mkv" := by
  decide

/-- C5 counterexample: the builder mutates the configuration. On the worked
example (whose output path is empty) the output-file field of the instance
state after `gen_transcode_args` differs from the field before the call, so
the configuration is not left unchanged. -/
theorem C5_config_mutated :
    cfg_movie.output_file = "" ∧
    ((gen_transcode_args (some "6.0") cfg_movie).1).output_file =
      "movie - ffmpeg:6.0_c:libx264_p:High_l:6.2_r:9_f:17.mkv" := by
  constructor
  · rfl
  · decide

/-- C5 amended: the builder leaves every configuration field unchanged except
`output_file`, which is overwritten with the generated name exactly when it
was empty (and kept verbatim otherwise). -/
theorem C5_frame_amended (ver : Option String) (cfg : Config) :
    (gen_transcode_args ver cfg).1 = { cfg with output_file := resolvedOutput ver cfg } := by
  simp only [gen_transcode_args, resolvedOutput]
  split <;> rfl

/-- C8: for every configuration, the built argv has the resolved output path
(configured, or generated when the configured one is empty) as its final
element. -/
theorem C8_argv_ends_with_output (ver : Option String) (cfg : Config) :
    ((gen_transcode_args ver cfg).2).getLast? = some (resolvedOutput ver cfg) := by
  have h := output_file_resolved ver cfg
  simp only [gen_transcode_args] at h ⊢
  rw [List.getLast?_concat]
  exact congrArg some h

/-- Whether the first list starts with the second, character by character. -/
def listStartsWith : List Char → List Char → Bool
  | _, [] => true
  | [], _ :: _ => false
  | c :: cs, p :: ps => c == p && listStartsWith cs ps

/-- The greedy capture of the regular expression
`^ffmpeg version (.+) Copyright` (line 262) applied to the engine's output:
the match must start at the beginning of the output, `.` does not cross a
newline, and `(.+)` is greedy, so the capture is the longest non-empty
newline-free string after `"ffmpeg version "` that is directly followed by
`" Copyright"`. Returns the captured group, or `none` when there is no
match. -/
def bannerCapture (out : String) : Option String :=
  let pre := "ffmpeg version ".data
  if listStartsWith out.data pre then
    let line := (out.data.drop pre.length).takeWhile (fun c => c ≠ '\n')
    match (List.range (line.length + 1)).reverse.find?
        (fun i => decide (1 ≤ i) && listStartsWith (line.drop i) " Copyright".data) with
    | some i => some (String.mk (line.take i))
    | none => none
  else none

/-- `Fftranscode.get_ffencode_version` (lines 258-270) as a function of the
engine's captured output. The local `ver` is assigned only inside the
`if m:` branch (line 267), yet line 270 executes `self.ffmpeg_ver = ver`
unconditionally, so when the pattern does not match the method raises
`UnboundLocalError`; the embedding returns that as `Except.error`. On a
match it completes, storing the decoded capture in `self.ffmpeg_ver`. -/
def get_ffencode_version (out : String) : Except String (Option String) :=
  match bannerCapture out with
  | some v => Except.ok (some v)
  | none => Except.error "UnboundLocalError: local variable referenced before assignment"

/-- C1: a run of the version query whose output does not match the banner
pattern does not complete silently: at the output `\"\"` (no banner at all)
`get_ffencode_version` raises instead of leaving the version undefined,
while a matching banner is captured normally. -/
theorem C1_version_miss_raises :
    get_ffencode_version "" =
      Except.error "UnboundLocalError: local variable referenced before assignment" ∧
    get_ffencode_version "ffmpeg version 6.0 Copyright (c) 2000" =
      Except.ok (some "6.0") := by
  exact ⟨rfl, rfl⟩

/-- The `subprocess.Popen` handle as the supervisor sees it: only its
returncode matters, `none` while the child has not exited (and been
reaped by a `poll`/`wait`), `some rc` afterwards. -/
structure Child where
  returncode : Option Int
deriving DecidableEq

/-- What `cancel_transcode` does on return: `sys.exit(2)` (line 187) or a
plain return to the caller. -/
inductive CancelOutcome
  | exitStatusTwo
  | returnsToCaller
deriving DecidableEq

/-- The observable effects of one `cancel_transcode` call. -/
structure CancelResult where
  killSignalSent : Bool
  blockedUntilReaped : Bool
  outcome : CancelOutcome
deriving DecidableEq

/-- `subprocess.Popen.kill` = `send_signal(SIGKILL)` (Python 3): it polls
first and signals only while `returncode` is `None`, doing nothing once the
process has completed. Returns whether the signal was actually sent. -/
def popen_kill (c : Child) : Bool :=
  c.returncode.isNone

/-- `Fftranscode.cancel_transcode` (lines 179-187) for a given instance state
`sp` and keyword argument `exit` (default `True` in the source): when a
subprocess handle exists it is killed (a library-level no-op if already
exited) and waited on (blocking only if not yet reaped); finally
`sys.exit(2)` runs exactly when `exit` is set. -/
def cancel_transcode (sp : Option Child) (exit : Bool) : CancelResult :=
  match sp with
  | some c =>
      { killSignalSent := popen_kill c,
        blockedUntilReaped := c.returncode.isNone,
        outcome := if exit then CancelOutcome.exitStatusTwo else CancelOutcome.returnsToCaller }
  | none =>
      { killSignalSent := false,
        blockedUntilReaped := false,
        outcome := if exit then CancelOutcome.exitStatusTwo else CancelOutcome.returnsToCaller }

/-- C4: `cancel_transcode` sends the kill signal, and blocks until the child
is reaped, exactly when a child handle exists whose returncode is still
unset; and it terminates the supervising process with exit status 2 exactly
when `exit` (the `forceExit` of the spec) is set, returning to the caller
otherwise. -/
theorem C4_cancel_behavior (sp : Option Child) (exit : Bool) :
    ((cancel_transcode sp exit).killSignalSent = true ↔
      ∃ c, sp = some c ∧ c.returncode = none) ∧
    ((cancel_transcode sp exit).blockedUntilReaped = true ↔
      ∃ c, sp = some c ∧ c.returncode = none) ∧
    ((cancel_transcode sp exit).outcome = CancelOutcome.exitStatusTwo ↔ exit = true) := by
  cases sp with
  | none =>
      refine ⟨by simp [cancel_transcode], by simp [cancel_transcode], ?_⟩
      cases exit <;> simp [cancel_transcode]
  | some c =>
      refine ⟨?_, ?_, ?_⟩
      · simp [cancel_transcode, popen_kill, Option.isNone_iff_eq_none]
      · simp [cancel_transcode, Option.isNone_iff_eq_none]
      · cases exit <;> simp [cancel_transcode]

/-- The observable effects of the `__main__` input-file guard. -/
structure MainStep where
  reportedError : Bool
  exitStatus : Option Nat
  spawnsChild : Bool
deriving DecidableEq

/-- The `__main__` dispatch on `options.input_file` (lines 311-324): a
non-empty input path proceeds into the transcode path (which is what spawns
the child); an empty one prints the error message and calls `sys.exit(1)`
without ever constructing the supervisor or a subprocess. -/
def main_input_check (input_file : String) : MainStep :=
  if 0 < input_file.length then
    { reportedError := false, exitStatus := none, spawnsChild := true }
  else
    { reportedError := true, exitStatus := some 1, spawnsChild := false }

/-- C9: with the required input file missing (the empty input path), the
program reports the error, exits with status 1, and spawns no child. -/
theorem C9_missing_input :
    main_input_check "" =
      { reportedError := true, exitStatus := some 1, spawnsChild := false } := by
  rfl

/-- `self.max_waits` (line 172): one week of one-second waits. -/
def max_waits : Nat := 604800

/-- `self.wait_interval` (line 173), in seconds. -/
def wait_interval : Nat := 1

/-- The message of the exception raised at line 297:
`"Transcode took longer tham max %s seconds." % (max_waits * wait_interval)`
(the typo `tham` is the source's). -/
def timeout_message : String :=
  "Transcode took longer tham max 604800 seconds."

/-- The polling loop of `transcode` (lines 290-294). The child is modelled by
`child : Nat → Option Int`, the returncode that the `n`-th
`handle_subprocess` poll observes. State: `numWaits` is `self.num_waits`, and
`exitCode` is `self.exit_code`, with `self.running` equal to
`exitCode.isNone` (lines 196-199 set both together). Each iteration
increments the counter, sleeps, polls, and records any observed returncode;
the loop stops once an exit code is recorded or `max_waits` iterations have
run. Returns the final `(num_waits, exit_code)`. -/
def transcodeLoop (child : Nat → Option Int) (numWaits : Nat) (exitCode : Option Int) :
    Nat × Option Int :=
  if h : exitCode = none ∧ numWaits < max_waits then
    transcodeLoop child (numWaits + 1) (child (numWaits + 1))
  else (numWaits, exitCode)
termination_by max_waits - numWaits
decreasing_by omega

/-- The supervision part of `Fftranscode.transcode` (lines 288-299): run the
polling loop from a fresh state, raise the elapsed-time exception when the
full `max_waits` iterations were performed (line 296 tests
`num_waits == max_waits` regardless of whether an exit code was captured),
and otherwise return `self.exit_code`. -/
def transcode (child : Nat → Option Int) : Except String (Option Int) :=
  let r := transcodeLoop child 0 none
  if r.1 = max_waits then Except.error timeout_message
  else Except.ok r.2

theorem loop_reaches (child : Nat → Option Int) (k : Nat) (c : Int)
    (hk : k ≤ max_waits) (hc : child k = some c) :
    ∀ n i, n = k - i → i < k → (∀ j, i < j → j < k → child j = none) →
      transcodeLoop child i none = (k, some c) := by
  intro n
  induction n with
  | zero => intro i hn hik _; omega
  | succ m ih =>
      intro i hn hik hnone
      rw [transcodeLoop, dif_pos ⟨rfl, by omega⟩]
      by_cases hik' : i + 1 = k
      · subst hik'
        rw [hc, transcodeLoop, dif_neg (by simp)]
      · have h1 : child (i + 1) = none := hnone (i + 1) (by omega) (by omega)
        rw [h1]
        exact ih (i + 1) (by omega) (by omega) (fun j hj1 hj2 => hnone j (by omega) hj2)

theorem loop_times_out (child : Nat → Option Int) :
    ∀ n i, n = max_waits - i → i ≤ max_waits →
      (∀ j, i < j → j < max_waits → child j = none) →
      (transcodeLoop child i none).1 = max_waits := by
  intro n
  induction n with
  | zero =>
      intro i hn hi _
      have hieq : i = max_waits := by omega
      subst hieq
      rw [transcodeLoop, dif_neg (by omega)]
  | succ m ih =>
      intro i hn hi hnone
      have hilt : i < max_waits := by omega
      rw [transcodeLoop, dif_pos ⟨rfl, hilt⟩]
      by_cases hik : i + 1 = max_waits
      · rw [transcodeLoop, dif_neg (by omega)]
        exact hik
      · have h1 : child (i + 1) = none := hnone (i + 1) (by omega) (by omega)
        rw [h1]
        exact ih (i + 1) (by omega) (by omega) (fun j hj1 hj2 => hnone j (by omega) hj2)

/-- C2 amended: the supervisor raises the elapsed-time fatal failure exactly
when none of the first 604,799 polls observes an exit code — that is, exactly
when the loop performs all 604,800 iterations. A child whose exit is first
observed at some earlier poll never triggers it, but a child whose exit is
first observed precisely at the 604,800th poll still does, because line 296
tests only the iteration count. -/
theorem C2_timeout_iff_no_early_exit (child : Nat → Option Int) :
    transcode child = Except.error timeout_message ↔
      (∀ j, j < max_waits → 1 ≤ j → child j = none) := by
  constructor
  · intro herr
    by_contra hnot
    push_neg at hnot
    obtain ⟨j, hj1, hj2, hj3⟩ := hnot
    have hex : ∃ n, n < max_waits ∧ 1 ≤ n ∧ ¬ child n = none := ⟨j, hj1, hj2, hj3⟩
    have hspec := Nat.find_spec hex
    obtain ⟨hklt, hk1, hkne⟩ := hspec
    obtain ⟨c, hc⟩ : ∃ c, child (Nat.find hex) = some c := by
      cases hval : child (Nat.find hex) with
      | none => exact absurd hval hkne
      | some c => exact ⟨c, rfl⟩
    have hmin : ∀ j, 0 < j → j < Nat.find hex → child j = none := by
      intro j hj0 hjlt
      by_contra hjc
      exact Nat.find_min hex hjlt ⟨by omega, by omega, hjc⟩
    have hloop := loop_reaches child (Nat.find hex) c (by omega) hc
      (Nat.find hex - 0) 0 rfl (by omega) (fun j h1 h2 => hmin j h1 h2)
    rw [transcode] at herr
    simp only [hloop] at herr
    rw [if_neg (by omega)] at herr
    exact Except.noConfusion herr
  · intro hall
    have hloop := loop_times_out child (max_waits - 0) 0 rfl (by omega)
      (fun j h1 h2 => hall j h2 (by omega))
    rw [transcode]
    simp only [hloop]
    simp

/-- A child whose exit code 0 first becomes observable exactly at the
604,800th poll. -/
def childAtCeiling : Nat → Option Int :=
  fun n => if n = max_waits then some 0 else none

/-- C2 counterexample: this child exits at (not after) the polling ceiling —
the final poll captures its exit code 0 into `self.exit_code` — and yet
`transcode` raises the elapsed-time fatal failure instead of returning the
exit code, refuting the claim that a child exiting at the ceiling raises no
fatal timeout condition. -/
theorem C2_fatal_despite_exit_at_ceiling :
    transcodeLoop childAtCeiling 0 none = (max_waits, some 0) ∧
    transcode childAtCeiling = Except.error timeout_message := by
  have hloop := loop_reaches childAtCeiling max_waits 0 (le_refl _)
    (by simp [childAtCeiling]) (max_waits - 0) 0 rfl (by decide)
    (by intro j h1 h2
        have hne : j ≠ max_waits := by omega
        simp [childAtCeiling, hne])
  refine ⟨hloop, ?_⟩
  rw [transcode]
  simp only [hloop]
  simp

/-- C3 amended: a child whose exit code `c` is observed at some poll strictly
before the 604,800th has `c` propagated verbatim as the result of
`transcode`, with no supervisor-level failure; only an exit first observed
exactly at the final poll is (mis)reported as a timeout. -/
theorem C3_exit_code_propagated (child : Nat → Option Int) (k : Nat) (c : Int)
    (h1 : 1 ≤ k) (h2 : k < max_waits)
    (h3 : ∀ j, j < k → 1 ≤ j → child j = none)
    (h4 : child k = some c) :
    transcode child = Except.ok (some c) := by
  have hloop := loop_reaches child k c (by omega) h4 (k - 0) 0 rfl (by omega)
    (fun j hj1 hj2 => h3 j hj2 (by omega))
  rw [transcode]
  simp only [hloop]
  rw [if_neg (by omega)]

/-- A child whose exit code 137 becomes observable from the third poll on. -/
def childExits137 : Nat → Option Int :=
  fun n => if 3 ≤ n then some 137 else none

/-- Witness for C3: the child exiting with code 137 at the third poll has 137
returned verbatim. -/
theorem C3_exit_code_propagated_witness :
    (1 ≤ 3) ∧ (3 < max_waits) ∧ (∀ j, j < 3 → 1 ≤ j → childExits137 j = none) ∧
    childExits137 3 = some 137 ∧
    transcode childExits137 = Except.ok (some 137) :=
  ⟨by decide, by decide, by decide, by decide,
    C3_exit_code_propagated childExits137 3 137 (by decide) (by decide)
      (by decide) (by decide)⟩

/-- A child whose exit code 137 first becomes observable exactly at the
604,800th poll. -/
def childExits137AtCeiling : Nat → Option Int :=
  fun n => if n = max_waits then some 137 else none

/-- C3 counterexample: this child exits within the polling ceiling — its exit
code 137 is captured by the last permitted poll — yet `transcode` raises the
elapsed-time failure rather than returning 137 verbatim. -/
theorem C3_exit_at_ceiling_not_returned :
    transcodeLoop childExits137AtCeiling 0 none = (max_waits, some 137) ∧
    transcode childExits137AtCeiling = Except.error timeout_message := by
  have hloop := loop_reaches childExits137AtCeiling max_waits 137 (le_refl _)
    (by simp [childExits137AtCeiling]) (max_waits - 0) 0 rfl (by decide)
    (by intro j h1 h2
        have hne : j ≠ max_waits := by omega
        simp [childExits137AtCeiling, hne])
  refine ⟨hloop, ?_⟩
  rw [transcode]
  simp only [hloop]
  simp

/-- A configuration with empty tune whose raw extra string smuggles a literal
`-tune` token into argv. -/
def cfg_extra_tune : Config :=
  { cfg_movie with tune := "", extra := "-tune film", output_file := "out.mkv" }

/-- C7 counterexample: with tune equal to the empty string but
`extra = "-tune film"`, the built argv does contain a tune flag (the extra
string is split on whitespace and appended verbatim), refuting the claim
that an empty tune keeps the tune flag out of argv for every
configuration. -/
theorem C7_tune_injected_via_extra :
    cfg_extra_tune.tune = "" ∧
    "-tune" ∈ (gen_transcode_args (some "6.0") cfg_extra_tune).2 := by
  refine ⟨rfl, ?_⟩
  decide

theorem argv_decomposed (ver : Option String) (cfg : Config) :
    (gen_transcode_args ver cfg).2 =
      nicePart cfg ++ baseArgs cfg ++ tunePart cfg ++ extraPart cfg ++
        stdinPart cfg ++ [resolvedOutput ver cfg] := by
  simp only [gen_transcode_args, resolvedOutput]
  split <;> rfl

/-- C7 amended: for every configuration none of whose other argv
contributions is the literal token `-tune` — the input path, codec, profile,
level, preset and crf fields differ from `-tune`, no whitespace token of
`extra` equals `-tune`, and the resolved output path differs from `-tune` —
an empty tune yields an argv with no tune flag anywhere, and a non-empty
tune yields exactly one `-tune` flag, immediately followed by the tune
value. -/
theorem C7_tune_flag_amended (ver : Option String) (cfg : Config)
    (h1 : cfg.input_file ≠ "-tune") (h2 : cfg.codec_lib ≠ "-tune")
    (h3 : cfg.profile ≠ "-tune") (h4 : cfg.level ≠ "-tune")
    (h5 : cfg.preset ≠ "-tune") (h6 : cfg.crf ≠ "-tune")
    (h7 : "-tune" ∉ pysplit cfg.extra)
    (h8 : resolvedOutput ver cfg ≠ "-tune") :
    (cfg.tune = "" → "-tune" ∉ (gen_transcode_args ver cfg).2) ∧
    (cfg.tune ≠ "" → ∃ A B, (gen_transcode_args ver cfg).2 =
      A ++ "-tune" :: cfg.tune :: B ∧ "-tune" ∉ A ∧ "-tune" ∉ B) := by
  have hnice : "-tune" ∉ nicePart cfg := by
    unfold nicePart; split <;> simp
  have hbase : "-tune" ∉ baseArgs cfg := by
    simp [baseArgs, Ne.symm h1, Ne.symm h2, Ne.symm h3, Ne.symm h4, Ne.symm h5, Ne.symm h6]
  have hextra : "-tune" ∉ extraPart cfg := by
    unfold extraPart; split
    · exact h7
    · simp
  have hstdin : "-tune" ∉ stdinPart cfg := by
    unfold stdinPart; split <;> simp
  have hout : "-tune" ∉ [resolvedOutput ver cfg] := by
    simp only [List.mem_singleton]
    exact fun h => h8 h.symm
  constructor
  · intro ht
    have htp : tunePart cfg = [] := by simp [tunePart, ht]
    rw [argv_decomposed, htp]
    intro hmem
    simp only [List.mem_append] at hmem
    rcases hmem with ((((hm | hm) | hm) | hm) | hm) | hm
    · exact hnice hm
    · exact hbase hm
    · exact List.not_mem_nil _ hm
    · exact hextra hm
    · exact hstdin hm
    · exact hout hm
  · intro ht
    have htp : tunePart cfg = ["-tune", cfg.tune] := by simp [tunePart, ht]
    refine ⟨nicePart cfg ++ baseArgs cfg,
      extraPart cfg ++ stdinPart cfg ++ [resolvedOutput ver cfg], ?_, ?_, ?_⟩
    · rw [argv_decomposed, htp]
      simp [List.append_assoc]
    · intro hmem
      rcases List.mem_append.mp hmem with hm | hm
      · exact hnice hm
      · exact hbase hm
    · intro hmem
      simp only [List.mem_append] at hmem
      rcases hmem with (hm | hm) | hm
      · exact hextra hm
      · exact hstdin hm
      · exact hout hm

/-- A configuration with a non-empty tune and no `-tune` token anywhere
else. -/
def cfg_tuned : Config :=
  { cfg_movie with tune := "film", output_file := "out.mkv" }

/-- Witness for C7 amended: on a concrete configuration tuned with `film`,
the built argv has exactly one `-tune` flag, immediately followed by
`film`. -/
theorem C7_tune_flag_amended_witness :
    (cfg_tuned.input_file ≠ "-tune") ∧ (cfg_tuned.codec_lib ≠ "-tune") ∧
    (cfg_tuned.profile ≠ "-tune") ∧ (cfg_tuned.level ≠ "-tune") ∧
    (cfg_tuned.preset ≠ "-tune") ∧ (cfg_tuned.crf ≠ "-tune") ∧
    ("-tune" ∉ pysplit cfg_tuned.extra) ∧
    (resolvedOutput (some "6.0") cfg_tuned ≠ "-tune") ∧ (cfg_tuned.tune ≠ "") ∧
    (∃ A B, (gen_transcode_args (some "6.0") cfg_tuned).2 =
      A ++ "-tune" :: cfg_tuned.tune :: B ∧ "-tune" ∉ A ∧ "-tune" ∉ B) :=
  ⟨by decide, by decide, by decide, by decide, by decide, by decide, by decide,
   by decide, by decide,
   (C7_tune_flag_amended (some "6.0") cfg_tuned (by decide) (by decide) (by decide)
      (by decide) (by decide) (by decide) (by decide) (by decide)).2 (by decide)⟩

theorem splitWsAux_ws_nil (l : List Char) (h : ∀ c ∈ l, c.isWhitespace) :
    splitWsAux l [] = [] := by
  induction l with
  | nil => rfl
  | cons c cs ih =>
      have hc : c.isWhitespace := h c (List.mem_cons_self c cs)
      have hrest : ∀ d ∈ cs, d.isWhitespace :=
        fun d hd => h d (List.mem_cons_of_mem c hd)
      simp [splitWsAux, hc, ih hrest]

/-- C10: when the extra string is non-empty but consists only of whitespace,
its whitespace split yields no tokens, so the built argv coincides with the
argv built for the same configuration with empty extra. -/
theorem C10_whitespace_extra (ver : Option String) (cfg : Config)
    (h1 : cfg.extra ≠ "") (h2 : ∀ c ∈ cfg.extra.data, c.isWhitespace) :
    (gen_transcode_args ver cfg).2 =
      (gen_transcode_args ver { cfg with extra := "" }).2 := by
  have hsplit : pysplit cfg.extra = [] := splitWsAux_ws_nil _ h2
  have he1 : extraPart cfg = [] := by simp [extraPart, h1, hsplit]
  have he2 : extraPart { cfg with extra := "" } = [] := by simp [extraPart]
  rw [argv_decomposed, argv_decomposed, he1, he2]
  rfl

/-- A configuration whose extra string is three whitespace characters. -/
def cfg_ws : Config :=
  { cfg_movie with extra := " \t ", output_file := "out.mkv" }

/-- Witness for C10: with `extra` a space-tab-space string, the built argv
equals the one built with empty extra. -/
theorem C10_whitespace_extra_witness :
    (cfg_ws.extra ≠ "") ∧ (∀ c ∈ cfg_ws.extra.data, c.isWhitespace) ∧
    (gen_transcode_args (some "6.0") cfg_ws).2 =
      (gen_transcode_args (some "6.0") { cfg_ws with extra := "" }).2 :=
  ⟨by decide, by decide,
   C10_whitespace_extra (some "6.0") cfg_ws (by decide) (by decide)⟩
